import Mathlib

/-!
Verification development for the YoutubeMCQGenerator study-session core.

The definitions below are a shallow embedding of the TypeScript source:
* `src/frontend/components/MCQQuiz.tsx` — `parseMCQOutput` (lines 19-72), the
  session handlers (`handleAnswerSelect`, `nextQuestion`, `prevQuestion`,
  `resetQuiz`, the `useEffect` loader) and `calculateScore`;
* `src/unnamed/part_001` (FlashcardQuiz) — `parseFlashcardOutput`,
  `handleFlip`, `nextCard`, `prevCard`, `resetStudy` and its loader.

Strings are embedded as `List Char`.  JavaScript regular expressions are
translated into explicit character-level scanners with the same semantics
(greedy/lazy capture, multiline anchors, lookahead split boundaries, the
single `\s` of the option pattern that can match a newline).  The `\s`
character class is modelled by its ASCII subset, which covers every
character the grammar of the generated text uses.
-/

/-- The JS `\s` class (ASCII part): space, tab, newline, carriage return,
vertical tab, form feed. -/
def jsWhitespace (c : Char) : Bool :=
  c == ' ' || c == '\t' || c == '\n' || c == '\r' || c == '\x0b' || c == '\x0c'

/-- JS line terminators (for multiline `^`/`$` and the dot class). -/
def isLineTerm (c : Char) : Bool :=
  c == '\n' || c == '\r' || c == '\u2028' || c == '\u2029'

/-- Left trim by `jsWhitespace`, as in `String.prototype.trim`. -/
def trimL (s : List Char) : List Char := s.dropWhile jsWhitespace

/-- JS `String.prototype.trim`: drop `\s` characters from both ends. -/
def trimS (s : List Char) : List Char := (trimL (trimL s).reverse).reverse

/-- Strip a literal marker from the front of `s`; `some rest` on success. -/
def stripPre : List Char → List Char → Option (List Char)
  | [], s => some s
  | _ :: _, [] => none
  | c :: cs, d :: ds => if c = d then stripPre cs ds else none

/-- Does `s` begin with the block-start pattern `\d+\.\s\*\*`? -/
def isBlockStart (s : List Char) : Bool :=
  match s.takeWhile Char.isDigit, s.dropWhile Char.isDigit with
  | _ :: _, '.' :: w :: '*' :: '*' :: _ => jsWhitespace w
  | _, _ => false

/-- Splits a raw text into its lines at JS line terminators, the line
structure that the multiline anchors `^`/`$` see. -/
def splitLinesGo (acc : List Char) : List Char → List (List Char)
  | [] => [acc.reverse]
  | c :: rest =>
    if isLineTerm c then acc.reverse :: splitLinesGo [] rest
    else splitLinesGo (c :: acc) rest

/-- All lines of `s`. -/
def splitLines (s : List Char) : List (List Char) := splitLinesGo [] s

/-- Lazy capture `(.+?)` followed by a literal `**`: the shortest non-empty
run of non-line-terminator characters that is immediately followed by two
asterisks.  `none` when no such run exists. -/
def captureToStarStar : List Char → Option (List Char)
  | [] => none
  | c :: rest =>
    if isLineTerm c then none
    else
      match rest with
      | '*' :: '*' :: _ => some [c]
      | _ => Option.map (fun t => c :: t) (captureToStarStar rest)

/-- Greedy `\s*` followed by the lazy `(.+?)\*\*` capture, with the regex
backtracking of the greedy part: prefer consuming one more whitespace
character, fall back to capturing from the current position. -/
def wsStarThenCapture : List Char → Option (List Char)
  | [] => none
  | c :: rest =>
    if jsWhitespace c then
      match wsStarThenCapture rest with
      | some t => some t
      | none => captureToStarStar (c :: rest)
    else captureToStarStar (c :: rest)

/-! ### MCQ extractor (`parseMCQOutput`, MCQQuiz.tsx lines 19-72) -/

/-- The four option letters of a question. -/
inductive Letter
  | A
  | B
  | C
  | D
deriving DecidableEq, Repr

/-- The `[ABCD]` character class. -/
def letterOf : Char → Option Letter
  | 'A' => some Letter.A
  | 'B' => some Letter.B
  | 'C' => some Letter.C
  | 'D' => some Letter.D
  | _ => none

/-- The options record `{A, B, C, D}`; the source initialises every key to
the empty string. -/
structure Options4 where
  A : List Char
  B : List Char
  C : List Char
  D : List Char
deriving DecidableEq, Repr

/-- The initial options record, every key mapped to the empty string. -/
def emptyOptions : Options4 := ⟨[], [], [], []⟩

/-- The assignment `options[letter] = text`. -/
def setOpt (o : Options4) : Letter → List Char → Options4
  | Letter.A, t => { o with A := t }
  | Letter.B, t => { o with B := t }
  | Letter.C, t => { o with C := t }
  | Letter.D, t => { o with D := t }

/-- A full within-line match of `^\s*\(([ABCD])\)\s(.+)$`: optional leading
whitespace, a parenthesised letter, one whitespace character, then at least
one character up to the end of the line.  Returns the letter and the
trimmed captured text. -/
def lineOptionHead (line : List Char) : Option (Letter × List Char) :=
  match line.dropWhile jsWhitespace with
  | '(' :: c :: ')' :: w :: rest =>
    match letterOf c with
    | some l => if jsWhitespace w && !rest.isEmpty then some (l, trimS rest) else none
    | none => none
  | _ => none

/-- A line whose content ends directly after the closing parenthesis, e.g.
`(A)`.  The single `\s` of the option pattern can then match the newline
itself and the `(.+)$` capture is taken from the following line. -/
def lineOptionDangling (line : List Char) : Option Letter :=
  match line.dropWhile jsWhitespace with
  | ['(', c, ')'] => letterOf c
  | _ => none

/-- The `optionRegex.exec` loop of `parseMCQOutput`: walk the lines of the
block, record each match into the options record and count it.  A dangling
`(A)` line takes its capture from the next line and consumes it. -/
def scanOptionsGo (st : Options4 × Nat) : List (List Char) → Options4 × Nat
  | [] => st
  | [ln] =>
    match lineOptionHead ln with
    | some (l, t) => (setOpt st.1 l t, st.2 + 1)
    | none => st
  | ln :: nl :: rest2 =>
    match lineOptionHead ln with
    | some (l, t) => scanOptionsGo (setOpt st.1 l t, st.2 + 1) (nl :: rest2)
    | none =>
      match lineOptionDangling ln with
      | some l =>
        if nl.isEmpty then scanOptionsGo st (nl :: rest2)
        else scanOptionsGo (setOpt st.1 l (trimS nl), st.2 + 1) rest2
      | none => scanOptionsGo st (nl :: rest2)

/-- All option matches of a block: the final options record and the number
of matches (`foundOptions` in the source). -/
def scanOptions (b : List Char) : Options4 × Nat :=
  scanOptionsGo (emptyOptions, 0) (splitLines b)

/-- The anchored question match `^\d+\.\s\*\*(.+?)\*\*`: leading digits, a
period, one whitespace character, `**`, then the lazy capture up to the
next `**`.  Returns the raw (untrimmed) capture. -/
def scanQuestionFront (s : List Char) : Option (List Char) :=
  match s.takeWhile Char.isDigit, s.dropWhile Char.isDigit with
  | _ :: _, '.' :: w :: '*' :: '*' :: tail =>
    if jsWhitespace w then captureToStarStar tail else none
  | _, _ => none

/-- The literal head of the correct-answer marker. -/
def correctMarkerPre : List Char := "**Correct Answer:".toList

/-- Match `\*\*Correct Answer:\s*\(([ABCD])\)\*\*` at the start of `s`;
returns the letter and the text following the whole marker. -/
def matchCorrectAt (s : List Char) : Option (Letter × List Char) :=
  match stripPre correctMarkerPre s with
  | none => none
  | some r =>
    match r.dropWhile jsWhitespace with
    | '(' :: c :: ')' :: '*' :: '*' :: rest =>
      match letterOf c with
      | some l => some (l, rest)
      | none => none
    | _ => none

/-- Leftmost match of the correct-answer marker in the block.  The
explanation capture `\s*([\s\S]*)$` of the source takes everything after
the same leftmost marker (it is trimmed at the use site). -/
def findCorrect : List Char → Option (Letter × List Char)
  | [] => none
  | s@(_ :: rest) =>
    match matchCorrectAt s with
    | some r => some r
    | none => findCorrect rest

/-- The per-block payload extracted by `parseMCQOutput` (everything except
the id). -/
structure QCore where
  question : List Char
  options : Options4
  correctAnswer : Letter
  explanation : List Char
deriving DecidableEq, Repr

/-- One iteration of the `questionBlocks.forEach` body of `parseMCQOutput`:
question text between `**`, exactly four option matches, a correct-answer
marker, and the trimmed explanation after it.  `none` mirrors the early
`return` (the block is skipped). -/
def parseMCQBlockCore (b : List Char) : Option QCore :=
  match scanQuestionFront b with
  | none => none
  | some qcap =>
    if (scanOptions b).2 ≠ 4 then none
    else
      match findCorrect b with
      | none => none
      | some (l, rest) => some ⟨trimS qcap, (scanOptions b).1, l, trimS rest⟩

/-- The `MCQQuestion` interface of the source. -/
structure MCQQuestion where
  id : Nat
  question : List Char
  options : Options4
  correctAnswer : Letter
  explanation : List Char
deriving DecidableEq, Repr

/-- The id assignment `id: index + 1` — the 0-based position `i` of the block among the offered
blocks becomes the record id `i + 1`. -/
def mkQuestion (i : Nat) (c : QCore) : MCQQuestion :=
  ⟨i + 1, c.question, c.options, c.correctAnswer, c.explanation⟩

/-- The indexed `forEach` over the offered blocks: parse each block
independently, skip failures, number records by block position. -/
def parseMCQGo (i : Nat) : List (List Char) → List MCQQuestion
  | [] => []
  | b :: bs =>
    match parseMCQBlockCore b with
    | some c => mkQuestion i c :: parseMCQGo (i + 1) bs
    | none => parseMCQGo (i + 1) bs

/-- The split `rawOutput.split(/\n(?=\d+\.\s\*\*)/g)`: cut at every newline that is
immediately followed by a block start; the newline is consumed. -/
def mcqSplitGo (acc : List Char) : List Char → List (List Char)
  | [] => [acc.reverse]
  | '\n' :: rest =>
    if isBlockStart rest then acc.reverse :: mcqSplitGo [] rest
    else mcqSplitGo ('\n' :: acc) rest
  | c :: rest => mcqSplitGo (c :: acc) rest

/-- The segments of the MCQ split. -/
def mcqSplit (raw : List Char) : List (List Char) := mcqSplitGo [] raw

/-- The blocks offered to the MCQ block parser: split segments whose
trimmed text begins with `\d+\.\s\*\*` (the `.filter` of the source). -/
def offeredMCQBlocks (raw : List Char) : List (List Char) :=
  (mcqSplit raw).filter (fun b => isBlockStart (trimS b))

/-- The extractor `parseMCQOutput` (MCQQuiz.tsx lines 19-72). -/
def parseMCQOutput (raw : List Char) : List MCQQuestion :=
  parseMCQGo 0 (offeredMCQBlocks raw)

/-! ### Flashcard extractor (`parseFlashcardOutput`, part_001 lines 13-63) -/

/-- The `Flashcard` interface of the source. -/
structure Flashcard where
  id : Nat
  front : List Char
  back : List Char
  category : Option (List Char)
deriving DecidableEq, Repr

/-- The literal answer marker `**Answer:**`. -/
def answerMarker : List Char := "**Answer:**".toList

/-- Leftmost occurrence of `**Answer:**`; returns the text after it. -/
def findAnswer : List Char → Option (List Char)
  | [] => none
  | s@(_ :: rest) =>
    match stripPre answerMarker s with
    | some suf => some suf
    | none => findAnswer rest

/-- The lazy `(.*?)(?=\d+\.\s\*\*|$)` capture (with the `s` flag): all
characters up to the first block-start lookahead position or the end. -/
def backCapture : List Char → List Char
  | [] => []
  | s@(c :: rest) => if isBlockStart s then [] else c :: backCapture rest

/-- The literal head of the category marker. -/
def categoryMarkerPre : List Char := "**Category:".toList

/-- Match `\*\*Category:\s*(.+?)\*\*` at the start of `s`. -/
def matchCategoryAt (s : List Char) : Option (List Char) :=
  match stripPre categoryMarkerPre s with
  | none => none
  | some r => wsStarThenCapture r

/-- Leftmost category match in the block. -/
def findCategory : List Char → Option (List Char)
  | [] => none
  | s@(_ :: rest) =>
    match matchCategoryAt s with
    | some t => some t
    | none => findCategory rest

/-- The per-block payload extracted by `parseFlashcardOutput`. -/
structure FCCore where
  front : List Char
  back : List Char
  category : Option (List Char)
deriving DecidableEq, Repr

/-- One iteration of the `flashcardBlocks.forEach` body: front between
`**`, back after `**Answer:**` (trimmed), and the block is skipped when
either the front marker or the answer marker is missing, or when the
trimmed front or back is empty (`if (!front || !back) return`). -/
def parseFCBlockCore (b : List Char) : Option FCCore :=
  match scanQuestionFront b with
  | none => none
  | some f =>
    match findAnswer b with
    | none => none
    | some suf =>
      if trimS f = [] ∨ trimS (backCapture (suf.dropWhile jsWhitespace)) = [] then none
      else
        some ⟨trimS f, trimS (backCapture (suf.dropWhile jsWhitespace)),
          Option.map trimS (findCategory b)⟩

/-- The id assignment `id: index + 1` for flashcards. -/
def mkFlashcard (i : Nat) (c : FCCore) : Flashcard :=
  ⟨i + 1, c.front, c.back, c.category⟩

/-- Indexed `forEach` over the offered flashcard blocks. -/
def parseFCGo (i : Nat) : List (List Char) → List Flashcard
  | [] => []
  | b :: bs =>
    match parseFCBlockCore b with
    | some c => mkFlashcard i c :: parseFCGo (i + 1) bs
    | none => parseFCGo (i + 1) bs

/-- The split `rawOutput.split(/(?=\d+\.\s\*\*)/g)`: a zero-width cut before every
block-start position except position 0 (a JS split never emits an empty
leading piece for an empty match at the start). -/
def fcSplitGo (atStart : Bool) (acc : List Char) : List Char → List (List Char)
  | [] => [acc.reverse]
  | c :: rest =>
    if !atStart && isBlockStart (c :: rest) then
      acc.reverse :: fcSplitGo false [c] rest
    else fcSplitGo false (c :: acc) rest

/-- The segments of the flashcard split. -/
def fcSplit (raw : List Char) : List (List Char) := fcSplitGo true [] raw

/-- The blocks offered to the flashcard block parser. -/
def offeredFCBlocks (raw : List Char) : List (List Char) :=
  (fcSplit raw).filter (fun b => isBlockStart (trimS b))

/-- The extractor `parseFlashcardOutput` (part_001 lines 13-63). -/
def parseFlashcardOutput (raw : List Char) : List Flashcard :=
  parseFCGo 0 (offeredFCBlocks raw)

/-! ### MCQ session state (`MCQQuiz` component state and handlers) -/

/-- Association-list model of the JS object `{[index]: letter}`; a spread
update `{...prev, [k]: v}` conses the new binding, lookup takes the most
recent one. -/
def lookupA : List (Nat × Letter) → Nat → Option Letter
  | [], _ => none
  | (k, v) :: rest, i => if k = i then some v else lookupA rest i

/-- Membership in the set of indices mapped to `true` (the
`showExplanation` object / the `reviewedCards` set). -/
def memNat : List Nat → Nat → Bool
  | [], _ => false
  | k :: rest, i => k == i || memNat rest i

/-- The `useState` fields of the `MCQQuiz` component. -/
structure MCQState where
  mcqData : List MCQQuestion
  currentQuestion : Nat
  selectedAnswers : List (Nat × Letter)
  showExplanation : List Nat
  quizCompleted : Bool
  loading : Bool
  error : List Char
deriving DecidableEq, Repr

/-- The initial component state. -/
def initialMCQState : MCQState :=
  { mcqData := [], currentQuestion := 0, selectedAnswers := [],
    showExplanation := [], quizCompleted := false, loading := true, error := [] }

/-- The handler `handleAnswerSelect` (MCQQuiz.tsx lines 109-118): record the answer for
the current index and mark its explanation shown. -/
def handleAnswerSelect (s : MCQState) (a : Letter) : MCQState :=
  { s with
    selectedAnswers := (s.currentQuestion, a) :: s.selectedAnswers,
    showExplanation := s.currentQuestion :: s.showExplanation }

/-- The answer-selection operation as the component exposes it: the option
button is disabled and its `onClick` guard is
`!showCurrentExplanation && handleAnswerSelect(letter)` (line 279), so the
handler only runs while the current index has no explanation shown. -/
def selectAnswerClick (s : MCQState) (a : Letter) : MCQState :=
  if memNat s.showExplanation s.currentQuestion then s else handleAnswerSelect s a

/-- The handler `nextQuestion` (lines 120-126). -/
def nextQuestion (s : MCQState) : MCQState :=
  if s.currentQuestion < s.mcqData.length - 1 then
    { s with currentQuestion := s.currentQuestion + 1 }
  else { s with quizCompleted := true }

/-- The handler `prevQuestion` (lines 128-132). -/
def prevQuestion (s : MCQState) : MCQState :=
  if 0 < s.currentQuestion then { s with currentQuestion := s.currentQuestion - 1 }
  else s

/-- The handler `resetQuiz` (lines 134-139). -/
def resetQuiz (s : MCQState) : MCQState :=
  { s with
    currentQuestion := 0, selectedAnswers := [], showExplanation := [],
    quizCompleted := false }

/-- Error message shown when no stored quiz data exists. -/
def mcqNoDataMsg : List Char :=
  "No quiz data found. Please generate a quiz first.".toList

/-- Error message shown when parsing yields zero questions. -/
def mcqParseFailMsg : List Char :=
  "Could not parse quiz questions. Please try generating the quiz again.".toList

/-- The `useEffect` loader of `MCQQuiz` (lines 84-107): read the stored
blob, parse it, reject an empty parse result with an error message, and
only then install the items. -/
def loadMCQ (stored : Option (List Char)) (s : MCQState) : MCQState :=
  match stored with
  | none => { s with error := mcqNoDataMsg, loading := false }
  | some raw =>
    if (parseMCQOutput raw).length = 0 then
      { s with error := mcqParseFailMsg, loading := false }
    else { s with mcqData := parseMCQOutput raw, loading := false }

/-- The operations the UI layer can issue on an MCQ session. -/
inductive MCQOp
  | select (a : Letter)
  | next
  | prev
  | reset
  | load (stored : Option (List Char))

/-- One operation step. -/
def mcqStep (s : MCQState) : MCQOp → MCQState
  | MCQOp.select a => selectAnswerClick s a
  | MCQOp.next => nextQuestion s
  | MCQOp.prev => prevQuestion s
  | MCQOp.reset => resetQuiz s
  | MCQOp.load r => loadMCQ r s

/-- The state after a sequence of operations from the initial state. -/
def runMCQ (ops : List MCQOp) : MCQState :=
  ops.foldl mcqStep initialMCQState

/-! ### Scorer (`calculateScore`, MCQQuiz.tsx lines 147-155, 186-188) -/

/-- The `mcqData.forEach((question, idx) => ...)` counting loop of
`calculateScore`, with `i` the index of the first remaining question. -/
def calcScoreGo (ans : List (Nat × Letter)) : Nat → List MCQQuestion → Nat
  | _, [] => 0
  | i, q :: qs =>
    (if lookupA ans i = some q.correctAnswer then 1 else 0) + calcScoreGo ans (i + 1) qs

/-- The scorer `calculateScore`. -/
def calculateScore (s : MCQState) : Nat := calcScoreGo s.selectedAnswers 0 s.mcqData

/-- Number of indices `j < n` satisfying `p`. -/
def countRange (p : Nat → Bool) : Nat → Nat
  | 0 => 0
  | n + 1 => countRange p n + (if p n then 1 else 0)

/-- Specification predicate: index `i` holds a recorded answer equal to the
correct option of the item. -/
def answeredCorrectlyAt (ans : List (Nat × Letter)) (qs : List MCQQuestion) (i : Nat) : Bool :=
  match qs[i]? with
  | some q => decide (lookupA ans i = some q.correctAnswer)
  | none => false

/-- Specification reading of the score: the count of indices with a
correct recorded answer. -/
def scoreSpec (s : MCQState) : Nat :=
  countRange (answeredCorrectlyAt s.selectedAnswers s.mcqData) s.mcqData.length

/-- JS `Math.round`: floor of `q + 1/2` (round half toward positive
infinity). -/
def jsRound (q : ℚ) : ℤ := Int.floor (q + 1 / 2)

/-- Round half away from zero, the rounding named by the specification. -/
def roundHalfAway (q : ℚ) : ℤ :=
  if 0 ≤ q then Int.floor (q + 1 / 2) else Int.ceil (q - 1 / 2)

/-- The percentage `Math.round((score / mcqData.length) * 100)` (line 188), with the
numeric work modelled exactly over `ℚ`. -/
def percentage (s : MCQState) : ℤ :=
  jsRound ((calculateScore s : ℚ) / (s.mcqData.length : ℚ) * 100)

/-! ### Flashcard session state (`FlashcardQuiz` component, part_001) -/

/-- The `useState` fields of the `FlashcardQuiz` component. -/
structure FCState where
  flashcardData : List Flashcard
  currentCard : Nat
  isFlipped : Bool
  reviewedCards : List Nat
  studyCompleted : Bool
  loading : Bool
  error : List Char
deriving DecidableEq, Repr

/-- The initial component state. -/
def initialFCState : FCState :=
  { flashcardData := [], currentCard := 0, isFlipped := false,
    reviewedCards := [], studyCompleted := false, loading := true, error := [] }

/-- The handler `handleFlip` (part_001 lines 106-111): toggle the visible side; when
the card was showing its front, add the current index to the reviewed
set. -/
def handleFlip (s : FCState) : FCState :=
  if s.isFlipped then { s with isFlipped := false }
  else { s with isFlipped := true, reviewedCards := s.currentCard :: s.reviewedCards }

/-- The handler `nextCard` (lines 113-120). -/
def nextCard (s : FCState) : FCState :=
  if s.currentCard < s.flashcardData.length - 1 then
    { s with currentCard := s.currentCard + 1, isFlipped := false }
  else { s with studyCompleted := true }

/-- The handler `prevCard` (lines 122-127). -/
def prevCard (s : FCState) : FCState :=
  if 0 < s.currentCard then
    { s with currentCard := s.currentCard - 1, isFlipped := false }
  else s

/-- The handler `resetStudy` (lines 129-134). -/
def resetStudy (s : FCState) : FCState :=
  { s with
    currentCard := 0, isFlipped := false, reviewedCards := [],
    studyCompleted := false }

/-- Error message shown when no stored flashcard data exists. -/
def fcNoDataMsg : List Char :=
  "No flashcard data found. Please generate flashcards first.".toList

/-- Error message shown when parsing yields zero flashcards. -/
def fcParseFailMsg : List Char :=
  "Could not parse flashcard data. Please try generating the flashcards again.".toList

/-- The `useEffect` loader of `FlashcardQuiz` (lines 75-104). -/
def loadFC (stored : Option (List Char)) (s : FCState) : FCState :=
  match stored with
  | none => { s with error := fcNoDataMsg, loading := false }
  | some raw =>
    if (parseFlashcardOutput raw).length = 0 then
      { s with error := fcParseFailMsg, loading := false }
    else { s with flashcardData := parseFlashcardOutput raw, loading := false }

/-- Apply `handleFlip` a given number of times. -/
def flipSeq : Nat → FCState → FCState
  | 0, s => s
  | n + 1, s => flipSeq n (handleFlip s)

/-! ### Theorems: session controller claims -/

/-- Reachability invariant of the MCQ component: every index holding a
recorded answer also has its explanation shown (the two objects are only
ever written together). -/
def answersShown (s : MCQState) : Prop :=
  ∀ k a, lookupA s.selectedAnswers k = some a → memNat s.showExplanation k = true

theorem answersShown_step (s : MCQState) (op : MCQOp) (h : answersShown s) :
    answersShown (mcqStep s op) := by
  cases op with
  | select a =>
    show answersShown (selectAnswerClick s a)
    unfold selectAnswerClick
    by_cases hg : memNat s.showExplanation s.currentQuestion
    · simpa [hg] using h
    · simp only [hg, if_neg, Bool.false_eq_true, not_false_eq_true, if_false]
      intro k b hk
      unfold handleAnswerSelect at hk ⊢
      simp only at hk ⊢
      by_cases hck : s.currentQuestion = k
      · simp [memNat, hck]
      · rw [lookupA] at hk
        rw [if_neg hck] at hk
        simp [memNat, h k b hk]
  | next =>
    show answersShown (nextQuestion s)
    unfold nextQuestion
    split <;> exact h
  | prev =>
    show answersShown (prevQuestion s)
    unfold prevQuestion
    split <;> exact h
  | reset =>
    intro k a hk
    simp [mcqStep, resetQuiz, lookupA] at hk
  | load r =>
    show answersShown (loadMCQ r s)
    unfold loadMCQ
    split
    · exact h
    · split <;> exact h

theorem answersShown_foldl (ops : List MCQOp) :
    ∀ s : MCQState, answersShown s → answersShown (ops.foldl mcqStep s) := by
  induction ops with
  | nil => intro s h; exact h
  | cons op rest ih =>
    intro s h
    exact ih (mcqStep s op) (answersShown_step s op h)

theorem answersShown_runMCQ (ops : List MCQOp) : answersShown (runMCQ ops) := by
  apply answersShown_foldl
  intro k a hk
  simp [initialMCQState, lookupA] at hk

/-- c2: in every session state reachable through the operations of the component, once an answer is recorded for the current index a further
answer-selection call is a no-op — the state, and in particular the
recorded first answer, is unchanged. -/
theorem c2_repeat_select_noop (ops : List MCQOp) (a l : Letter)
    (h : lookupA (runMCQ ops).selectedAnswers (runMCQ ops).currentQuestion = some a) :
    selectAnswerClick (runMCQ ops) l = runMCQ ops := by
  have hm := answersShown_runMCQ ops _ _ h
  unfold selectAnswerClick
  simp [hm]

theorem c2_repeat_select_noop_witness :
    lookupA (runMCQ [MCQOp.select Letter.A]).selectedAnswers
        (runMCQ [MCQOp.select Letter.A]).currentQuestion = some Letter.A
    ∧ selectAnswerClick (runMCQ [MCQOp.select Letter.A]) Letter.B
        = runMCQ [MCQOp.select Letter.A] :=
  ⟨by decide, c2_repeat_select_noop [MCQOp.select Letter.A] Letter.A Letter.B (by decide)⟩

/-- A three-question raw text for the retreat scenario. -/
def c7raw : List Char :=
  ("1. **Q1**\n(A) a\n(B) b\n(C) c\n(D) d\n**Correct Answer: (A)**\n" ++
   "2. **Q2**\n(A) a\n(B) b\n(C) c\n(D) d\n**Correct Answer: (B)**\n" ++
   "3. **Q3**\n(A) a\n(B) b\n(C) c\n(D) d\n**Correct Answer: (C)**").toList

/-- Load three questions, answer the first, advance twice, retreat twice. -/
def c7ops : List MCQOp :=
  [MCQOp.load (some c7raw), MCQOp.select Letter.A, MCQOp.next, MCQOp.next,
   MCQOp.prev, MCQOp.prev]

/-- c7: retreat decrements the index (when positive) and changes nothing
else — the answers map and the revealed/reviewed set survive; and in the
concrete load/answer/advance/advance/retreat/retreat scenario the answer
and the revealed flag recorded for index 0 are still present. -/
theorem c7_retreat_frame :
    (∀ s : MCQState, 0 < s.currentQuestion →
      prevQuestion s = { s with currentQuestion := s.currentQuestion - 1 })
    ∧ (∀ s : FCState, (prevCard s).reviewedCards = s.reviewedCards)
    ∧ (∀ s : FCState, 0 < s.currentCard →
      prevCard s = { s with currentCard := s.currentCard - 1, isFlipped := false })
    ∧ ((runMCQ c7ops).currentQuestion = 0
      ∧ lookupA (runMCQ c7ops).selectedAnswers 0 = some Letter.A
      ∧ memNat (runMCQ c7ops).showExplanation 0 = true) := by
  refine ⟨?_, ?_, ?_, by decide, by decide, by decide⟩
  · intro s h
    unfold prevQuestion
    simp [h]
  · intro s
    unfold prevCard
    split <;> rfl
  · intro s h
    unfold prevCard
    simp [h]

/-- A concrete MCQ state with a positive index. -/
def c7mcqState : MCQState := { initialMCQState with currentQuestion := 5 }

/-- A concrete flashcard state with a positive index. -/
def c7fcState : FCState := { initialFCState with currentCard := 2, isFlipped := true }

theorem c7_retreat_frame_witness :
    prevQuestion c7mcqState
        = { c7mcqState with currentQuestion := c7mcqState.currentQuestion - 1 }
    ∧ prevCard c7fcState
        = { c7fcState with currentCard := c7fcState.currentCard - 1, isFlipped := false } :=
  ⟨c7_retreat_frame.1 c7mcqState (by decide),
   c7_retreat_frame.2.2.1 c7fcState (by decide)⟩

theorem memNat_handleFlip (s : FCState) (k : Nat)
    (h : memNat s.reviewedCards k = true) :
    memNat (handleFlip s).reviewedCards k = true := by
  unfold handleFlip
  split
  · exact h
  · simp [memNat, h]

/-- c8: the first flip away from the front records the current index as
reviewed; no sequence of further flips removes a reviewed index; card
navigation does not remove it either; only reset clears the set. -/
theorem c8_reviewed_monotone :
    (∀ s : FCState, s.isFlipped = false →
      (handleFlip s).reviewedCards = s.currentCard :: s.reviewedCards)
    ∧ (∀ (s : FCState) (n k : Nat), memNat s.reviewedCards k = true →
      memNat (flipSeq n s).reviewedCards k = true)
    ∧ (∀ (s : FCState) (k : Nat), memNat s.reviewedCards k = true →
      memNat (nextCard s).reviewedCards k = true
      ∧ memNat (prevCard s).reviewedCards k = true)
    ∧ (∀ s : FCState, (resetStudy s).reviewedCards = []) := by
  refine ⟨?_, ?_, ?_, fun s => rfl⟩
  · intro s h
    unfold handleFlip
    simp [h]
  · intro s n
    induction n generalizing s with
    | zero => intro k h; exact h
    | succ m ih =>
      intro k h
      exact ih (handleFlip s) k (memNat_handleFlip s k h)
  · intro s k h
    constructor
    · unfold nextCard
      split <;> exact h
    · unfold prevCard
      split <;> exact h

theorem c8_reviewed_monotone_witness :
    (handleFlip initialFCState).reviewedCards
        = initialFCState.currentCard :: initialFCState.reviewedCards
    ∧ memNat (flipSeq 2 (handleFlip initialFCState)).reviewedCards 0 = true
    ∧ (memNat (nextCard (handleFlip initialFCState)).reviewedCards 0 = true
      ∧ memNat (prevCard (handleFlip initialFCState)).reviewedCards 0 = true) :=
  ⟨c8_reviewed_monotone.1 initialFCState (by decide),
   c8_reviewed_monotone.2.1 (handleFlip initialFCState) 2 0 (by decide),
   c8_reviewed_monotone.2.2.1 (handleFlip initialFCState) 0 (by decide)⟩

/-- c10: any card navigation that changes the current index resets the
visible side to the front. -/
theorem c10_navigation_unflips : ∀ s : FCState,
    (s.currentCard < s.flashcardData.length - 1 →
      (nextCard s).isFlipped = false ∧ (nextCard s).currentCard = s.currentCard + 1)
    ∧ (0 < s.currentCard →
      (prevCard s).isFlipped = false ∧ (prevCard s).currentCard = s.currentCard - 1) := by
  intro s
  constructor
  · intro h
    unfold nextCard
    simp [h]
  · intro h
    unfold prevCard
    simp [h]

/-- A concrete flashcard. -/
def cFlash : Flashcard := ⟨1, "F".toList, "B".toList, none⟩

/-- A flipped two-card state at index 0. -/
def c10state : FCState :=
  { initialFCState with flashcardData := [cFlash, cFlash], isFlipped := true }

/-- A flipped two-card state at index 1. -/
def c10stateB : FCState := { c10state with currentCard := 1 }

theorem c10_navigation_unflips_witness :
    ((nextCard c10state).isFlipped = false
      ∧ (nextCard c10state).currentCard = c10state.currentCard + 1)
    ∧ ((prevCard c10stateB).isFlipped = false
      ∧ (prevCard c10stateB).currentCard = c10stateB.currentCard - 1) :=
  ⟨(c10_navigation_unflips c10state).1 (by decide),
   (c10_navigation_unflips c10stateB).2 (by decide)⟩

/-- c9: a load whose parse yields zero items sets a non-empty error
message (reported, not swallowed) and leaves every session field — items,
index, answers, revealed/reviewed set, completion — unchanged, for both
the MCQ and the flashcard component. -/
theorem c9_empty_load_rejected :
    (∀ (s : MCQState) (raw : List Char), parseMCQOutput raw = [] →
      (loadMCQ (some raw) s).mcqData = s.mcqData
      ∧ (loadMCQ (some raw) s).currentQuestion = s.currentQuestion
      ∧ (loadMCQ (some raw) s).selectedAnswers = s.selectedAnswers
      ∧ (loadMCQ (some raw) s).showExplanation = s.showExplanation
      ∧ (loadMCQ (some raw) s).quizCompleted = s.quizCompleted
      ∧ (loadMCQ (some raw) s).error = mcqParseFailMsg
      ∧ (loadMCQ (some raw) s).error ≠ [])
    ∧ (∀ (s : FCState) (raw : List Char), parseFlashcardOutput raw = [] →
      (loadFC (some raw) s).flashcardData = s.flashcardData
      ∧ (loadFC (some raw) s).currentCard = s.currentCard
      ∧ (loadFC (some raw) s).isFlipped = s.isFlipped
      ∧ (loadFC (some raw) s).reviewedCards = s.reviewedCards
      ∧ (loadFC (some raw) s).studyCompleted = s.studyCompleted
      ∧ (loadFC (some raw) s).error = fcParseFailMsg
      ∧ (loadFC (some raw) s).error ≠ []) := by
  constructor
  · intro s raw h
    have hlen : (parseMCQOutput raw).length = 0 := by rw [h]; rfl
    have e : loadMCQ (some raw) s = { s with error := mcqParseFailMsg, loading := false } := by
      unfold loadMCQ
      simp [hlen]
    rw [e]
    exact ⟨rfl, rfl, rfl, rfl, rfl, rfl, (by decide : mcqParseFailMsg ≠ [])⟩
  · intro s raw h
    have hlen : (parseFlashcardOutput raw).length = 0 := by rw [h]; rfl
    have e : loadFC (some raw) s = { s with error := fcParseFailMsg, loading := false } := by
      unfold loadFC
      simp [hlen]
    rw [e]
    exact ⟨rfl, rfl, rfl, rfl, rfl, rfl, (by decide : fcParseFailMsg ≠ [])⟩

theorem c9_empty_load_rejected_witness :
    ((loadMCQ (some []) initialMCQState).mcqData = initialMCQState.mcqData
      ∧ (loadMCQ (some []) initialMCQState).currentQuestion = initialMCQState.currentQuestion
      ∧ (loadMCQ (some []) initialMCQState).selectedAnswers = initialMCQState.selectedAnswers
      ∧ (loadMCQ (some []) initialMCQState).showExplanation = initialMCQState.showExplanation
      ∧ (loadMCQ (some []) initialMCQState).quizCompleted = initialMCQState.quizCompleted
      ∧ (loadMCQ (some []) initialMCQState).error = mcqParseFailMsg
      ∧ (loadMCQ (some []) initialMCQState).error ≠ [])
    ∧ ((loadFC (some []) initialFCState).flashcardData = initialFCState.flashcardData
      ∧ (loadFC (some []) initialFCState).currentCard = initialFCState.currentCard
      ∧ (loadFC (some []) initialFCState).isFlipped = initialFCState.isFlipped
      ∧ (loadFC (some []) initialFCState).reviewedCards = initialFCState.reviewedCards
      ∧ (loadFC (some []) initialFCState).studyCompleted = initialFCState.studyCompleted
      ∧ (loadFC (some []) initialFCState).error = fcParseFailMsg
      ∧ (loadFC (some []) initialFCState).error ≠ []) :=
  ⟨c9_empty_load_rejected.1 initialMCQState [] (by decide),
   c9_empty_load_rejected.2 initialFCState [] (by decide)⟩

/-! ### Theorems: scorer -/

theorem countRange_congr (p q : Nat → Bool) (h : ∀ j, p j = q j) :
    ∀ n, countRange p n = countRange q n := by
  intro n
  induction n with
  | zero => rfl
  | succ m ih => simp [countRange, ih, h m]

theorem countRange_shift (p : Nat → Bool) :
    ∀ n, countRange p (n + 1)
      = (if p 0 then 1 else 0) + countRange (fun j => p (j + 1)) n := by
  intro n
  induction n with
  | zero => cases hp : p 0 <;> simp [countRange, hp]
  | succ m ih =>
    have e1 : countRange p (m + 1 + 1) = countRange p (m + 1) + (if p (m + 1) then 1 else 0) := rfl
    have e2 : countRange (fun j => p (j + 1)) (m + 1)
        = countRange (fun j => p (j + 1)) m + (if p (m + 1) then 1 else 0) := rfl
    rw [e1, ih, e2]
    omega

theorem calcScoreGo_eq_countRange (ans : List (Nat × Letter)) :
    ∀ (qs : List MCQQuestion) (i : Nat),
      calcScoreGo ans i qs
        = countRange (fun j =>
            match qs[j]? with
            | some q => decide (lookupA ans (i + j) = some q.correctAnswer)
            | none => false) qs.length := by
  intro qs
  induction qs with
  | nil => intro i; rfl
  | cons q qs ih =>
    intro i
    rw [List.length_cons, countRange_shift, calcScoreGo, ih (i + 1)]
    congr 1
    · simp
    · apply countRange_congr
      intro j
      simp only [List.getElem?_cons_succ, show i + 1 + j = i + (j + 1) from by omega]

theorem calculateScore_eq_scoreSpec (s : MCQState) : calculateScore s = scoreSpec s := by
  unfold calculateScore scoreSpec
  rw [calcScoreGo_eq_countRange]
  apply countRange_congr
  intro j
  unfold answeredCorrectlyAt
  cases h : s.mcqData[j]? <;> simp [h]

theorem calcScoreGo_nil_ans : ∀ (qs : List MCQQuestion) (i : Nat), calcScoreGo [] i qs = 0 := by
  intro qs
  induction qs with
  | nil => intro i; rfl
  | cons q qs ih => intro i; simp [calcScoreGo, lookupA, ih]

/-- c6: the computed score equals the count of indices whose recorded
answer matches the correct option of the item; the percentage equals
round-half-away-from-zero of `score / totalItems * 100` (the argument is
non-negative, so `Math.round` agrees with it); the score is `0` when no
answers are recorded; and neither score nor percentage reads the
completion flag, so both are defined in every phase. -/
theorem c6_score_spec :
    (∀ s : MCQState, calculateScore s = scoreSpec s)
    ∧ (∀ s : MCQState, 0 < s.mcqData.length →
      percentage s = roundHalfAway ((calculateScore s : ℚ) / (s.mcqData.length : ℚ) * 100))
    ∧ (∀ s : MCQState, s.selectedAnswers = [] → calculateScore s = 0)
    ∧ (∀ (s : MCQState) (b : Bool),
      calculateScore { s with quizCompleted := b } = calculateScore s
      ∧ percentage { s with quizCompleted := b } = percentage s) := by
  refine ⟨calculateScore_eq_scoreSpec, ?_, ?_, fun s b => ⟨rfl, rfl⟩⟩
  · intro s _
    unfold percentage roundHalfAway jsRound
    rw [if_pos]
    positivity
  · intro s h
    unfold calculateScore
    rw [h]
    exact calcScoreGo_nil_ans s.mcqData 0

/-- A two-question data set for the scoring witness. -/
def c6q1 : MCQQuestion :=
  ⟨1, "Q1".toList, ⟨"a".toList, "b".toList, "c".toList, "d".toList⟩, Letter.A, []⟩

/-- Second question, correct option B. -/
def c6q2 : MCQQuestion := { c6q1 with id := 2, correctAnswer := Letter.B }

/-- State with one correct recorded answer out of two questions. -/
def c6state : MCQState :=
  { initialMCQState with
    mcqData := [c6q1, c6q2], selectedAnswers := [(0, Letter.A)], showExplanation := [0] }

/-- The same data set with no recorded answers. -/
def c6stateEmpty : MCQState := { initialMCQState with mcqData := [c6q1, c6q2] }

theorem c6_score_spec_witness :
    percentage c6state
      = roundHalfAway ((calculateScore c6state : ℚ) / (c6state.mcqData.length : ℚ) * 100)
    ∧ calculateScore c6stateEmpty = 0 :=
  ⟨c6_score_spec.2.1 c6state (by decide), c6_score_spec.2.2.1 c6stateEmpty rfl⟩

/-! ### Theorems: extractor discard policies (C1, C3) -/

/-- Raw input whose single block repeats the letter A among its four
option-pattern matches (and has no D line at all). -/
def c1raw : List Char :=
  "1. **Q**\n(A) x\n(A) y\n(B) z\n(C) w\n**Correct Answer: (A)**".toList

/-- c1 counterexample: the duplicate-letter block is not discarded — the
extractor emits it as a `Question`, its A option holds the text of the last duplicate and its D option is the empty string, refuting both the non-empty-
options guarantee and the discard-on-duplicates guarantee. -/
theorem c1_counterexample :
    parseMCQOutput c1raw
      = [{ id := 1, question := "Q".toList,
           options := { A := "y".toList, B := "z".toList, C := "w".toList, D := [] },
           correctAnswer := Letter.A, explanation := [] }]
    ∧ (parseMCQOutput c1raw).map (fun q => q.options.D) = [[]] := by
  exact ⟨by decide, by decide⟩

/-- c1 (amended): a block is kept iff its question marker matches, the
number of option-pattern matches is exactly 4, and the correct-answer
marker is present; the captured letters are not required to be distinct
and per-letter non-emptiness is not checked, so a duplicated letter leaves the option text of another letter empty in an emitted record. -/
theorem c1_block_acceptance : ∀ b : List Char,
    (parseMCQBlockCore b).isSome
      ↔ ((scanQuestionFront b).isSome ∧ (scanOptions b).2 = 4 ∧ (findCorrect b).isSome) := by
  intro b
  rcases hq : scanQuestionFront b with _ | f
  · simp [parseMCQBlockCore, hq]
  · by_cases h4 : (scanOptions b).2 = 4
    · rcases hc : findCorrect b with _ | lr
      · simp [parseMCQBlockCore, hq, h4, hc]
      · cases lr
        simp [parseMCQBlockCore, hq, h4, hc]
    · simp [parseMCQBlockCore, hq, h4]

/-- A flashcard block whose front and answer markers are both present but
whose back text is empty after trimming. -/
def c3raw : List Char := "1. **Q**\n**Answer:**".toList

/-- c3 counterexample: both the front marker and the answer marker match
in the offered block, yet the extractor returns nothing — an
empty-but-present back is discarded, not retained. -/
theorem c3_counterexample :
    (scanQuestionFront c3raw).isSome = true
    ∧ (findAnswer c3raw).isSome = true
    ∧ offeredFCBlocks c3raw = [c3raw]
    ∧ parseFlashcardOutput c3raw = [] := by
  exact ⟨by decide, by decide, by decide, by decide⟩

/-- c3 (amended): a flashcard block is kept iff the front marker matches
with non-empty trimmed text, the answer marker is present, and the trimmed
back text is non-empty; a block whose back trims to the empty string is
dropped. -/
theorem c3_block_acceptance : ∀ b : List Char,
    (parseFCBlockCore b).isSome
      ↔ (∃ f, scanQuestionFront b = some f ∧ trimS f ≠ []
          ∧ ∃ suf, findAnswer b = some suf
            ∧ trimS (backCapture (suf.dropWhile jsWhitespace)) ≠ []) := by
  intro b
  rcases hq : scanQuestionFront b with _ | f
  · simp [parseFCBlockCore, hq]
  · rcases ha : findAnswer b with _ | suf
    · simp [parseFCBlockCore, hq, ha]
    · by_cases he : trimS f = [] ∨ trimS (backCapture (suf.dropWhile jsWhitespace)) = []
      · simp only [parseFCBlockCore, hq, ha, if_pos he, Option.isSome_none,
          Bool.false_eq_true, false_iff]
        push_neg
        intro f2 hf2
        rw [Option.some.injEq] at hf2
        subst hf2
        intro hfne suf2 hsuf2
        rw [Option.some.injEq] at hsuf2
        subst hsuf2
        rcases he with he | he
        · exact absurd he hfne
        · exact he
      · simp only [parseFCBlockCore, hq, ha, if_neg he, Option.isSome_some, true_iff]
        push_neg at he
        exact ⟨f, rfl, he.1, suf, rfl, he.2⟩

/-! ### Theorems: best-effort extraction and id numbering (C4, C5) -/

/-- The id-free payload of a returned question. -/
def coreOf (q : MCQQuestion) : QCore := ⟨q.question, q.options, q.correctAnswer, q.explanation⟩

theorem parseMCQGo_map_core (bs : List (List Char)) :
    ∀ i, (parseMCQGo i bs).map coreOf = bs.filterMap parseMCQBlockCore := by
  induction bs with
  | nil => intro i; rfl
  | cons b bs ih =>
    intro i
    rcases hb : parseMCQBlockCore b with _ | c <;>
      simp [parseMCQGo, hb, List.filterMap_cons, ih, coreOf, mkQuestion]

theorem parseMCQGo_length (bs : List (List Char)) :
    ∀ i, (parseMCQGo i bs).length
      = (bs.filter (fun b => (parseMCQBlockCore b).isSome)).length := by
  induction bs with
  | nil => intro i; rfl
  | cons b bs ih =>
    intro i
    rcases hb : parseMCQBlockCore b with _ | c <;>
      simp [parseMCQGo, hb, List.filter_cons, ih]

/-- c4: parsing is per-block and best-effort — the extractor returns
exactly one record per well-formed offered block (a malformed block never
aborts the rest), and the returned payloads are exactly the successful
block parses in their original relative order. -/
theorem c4_best_effort : ∀ raw : List Char,
    (parseMCQOutput raw).length
      = ((offeredMCQBlocks raw).filter (fun b => (parseMCQBlockCore b).isSome)).length
    ∧ (parseMCQOutput raw).map coreOf
      = (offeredMCQBlocks raw).filterMap parseMCQBlockCore := by
  intro raw
  exact ⟨parseMCQGo_length _ 0, parseMCQGo_map_core _ 0⟩

/-- Number of well-formed blocks in a list. -/
def countWF : List (List Char) → Nat
  | [] => 0
  | b :: bs => (if (parseMCQBlockCore b).isSome then 1 else 0) + countWF bs

theorem countWF_le_length : ∀ bs : List (List Char), countWF bs ≤ bs.length := by
  intro bs
  induction bs with
  | nil => simp [countWF]
  | cons b bs ih =>
    by_cases h : (parseMCQBlockCore b).isSome <;> simp [countWF, h] <;> omega

theorem getElem?_take_lt :
    ∀ (l : List (List Char)) (k m : Nat), m < k → (l.take k)[m]? = l[m]? := by
  intro l
  induction l with
  | nil => intro k m _; simp
  | cons b bs ih =>
    intro k m h
    cases k with
    | zero => omega
    | succ k2 =>
      cases m with
      | zero => simp [List.take_succ_cons]
      | succ m2 =>
        rw [List.take_succ_cons, List.getElem?_cons_succ, List.getElem?_cons_succ]
        exact ih k2 m2 (by omega)

theorem countWF_lt_of_bad :
    ∀ (l : List (List Char)) (m : Nat) (b : List Char),
      l[m]? = some b → (parseMCQBlockCore b).isSome = false → countWF l < l.length := by
  intro l
  induction l with
  | nil => intro m b h _; simp at h
  | cons x xs ih =>
    intro m b h hb
    cases m with
    | zero =>
      rw [List.getElem?_cons_zero, Option.some.injEq] at h
      subst h
      have := countWF_le_length xs
      simp [countWF, hb]
      omega
    | succ m2 =>
      rw [List.getElem?_cons_succ] at h
      have := ih m2 b h hb
      by_cases hx : (parseMCQBlockCore x).isSome <;> simp [countWF, hx] <;> omega

theorem parseMCQGo_getElem (bs : List (List Char)) :
    ∀ (i j : Nat) (q : MCQQuestion), (parseMCQGo i bs)[j]? = some q →
      ∃ k b c, bs[k]? = some b ∧ parseMCQBlockCore b = some c
        ∧ q = mkQuestion (i + k) c ∧ countWF (bs.take k) = j := by
  induction bs with
  | nil => intro i j q h; simp [parseMCQGo] at h
  | cons b bs ih =>
    intro i j q h
    rcases hb : parseMCQBlockCore b with _ | c
    · simp only [parseMCQGo, hb] at h
      obtain ⟨k, b2, c2, h1, h2, h3, h4⟩ := ih (i + 1) j q h
      refine ⟨k + 1, b2, c2, ?_, h2, ?_, ?_⟩
      · rw [List.getElem?_cons_succ]; exact h1
      · rw [show i + (k + 1) = i + 1 + k from by omega]; exact h3
      · simp [List.take_succ_cons, countWF, hb, h4]
    · simp only [parseMCQGo, hb] at h
      cases j with
      | zero =>
        rw [List.getElem?_cons_zero, Option.some.injEq] at h
        refine ⟨0, b, c, by simp, hb, ?_, by simp [countWF]⟩
        rw [show i + 0 = i from by omega]
        exact h.symm
      | succ j2 =>
        rw [List.getElem?_cons_succ] at h
        obtain ⟨k, b2, c2, h1, h2, h3, h4⟩ := ih (i + 1) j2 q h
        refine ⟨k + 1, b2, c2, ?_, h2, ?_, ?_⟩
        · rw [List.getElem?_cons_succ]; exact h1
        · rw [show i + (k + 1) = i + 1 + k from by omega]; exact h3
        · simp [List.take_succ_cons, countWF, hb, h4]
          omega

/-- c5: the `id` of the `j`-th returned record is one more than the 0-based
position `k` of its source block among the blocks offered to the parser
(`countWF (take k) = j` says exactly `j` earlier offered blocks parsed),
hence the id is at least the 1-based output position of the record and strictly
exceeds it whenever some earlier offered block is malformed. -/
theorem c5_id_from_offered_position : ∀ (raw : List Char) (j : Nat) (q : MCQQuestion),
    (parseMCQOutput raw)[j]? = some q →
    ∃ k, (∃ b c, (offeredMCQBlocks raw)[k]? = some b ∧ parseMCQBlockCore b = some c
        ∧ q = mkQuestion k c)
      ∧ q.id = k + 1
      ∧ countWF ((offeredMCQBlocks raw).take k) = j
      ∧ j + 1 ≤ q.id
      ∧ ((∃ m b2, m < k ∧ (offeredMCQBlocks raw)[m]? = some b2
            ∧ (parseMCQBlockCore b2).isSome = false) → j + 1 < q.id) := by
  intro raw j q h
  obtain ⟨k, b, c, h1, h2, h3, h4⟩ := parseMCQGo_getElem (offeredMCQBlocks raw) 0 j q h
  rw [Nat.zero_add] at h3
  have hid : q.id = k + 1 := by rw [h3]; rfl
  have hkb : k < (offeredMCQBlocks raw).length := by
    by_contra hk
    push_neg at hk
    rw [List.getElem?_eq_none hk] at h1
    exact Option.noConfusion h1
  have hlen : ((offeredMCQBlocks raw).take k).length = k := by
    rw [List.length_take]
    omega
  have hle : countWF ((offeredMCQBlocks raw).take k)
      ≤ ((offeredMCQBlocks raw).take k).length := countWF_le_length _
  refine ⟨k, ⟨b, c, h1, h2, h3⟩, hid, h4, by omega, ?_⟩
  rintro ⟨m, b2, hm, hm2, hm3⟩
  have hmt : ((offeredMCQBlocks raw).take k)[m]? = some b2 := by
    rw [getElem?_take_lt _ k m hm]
    exact hm2
  have hlt := countWF_lt_of_bad _ m b2 hmt hm3
  omega

/-- Two offered blocks, the first malformed (no options), the second
well-formed; the surviving record sits at output position 0 with id 2. -/
def c5raw : List Char :=
  "1. **Bad**\n2. **Good**\n(A) a\n(B) b\n(C) c\n(D) d\n**Correct Answer: (B)** ok".toList

/-- The record the parser returns for `c5raw`. -/
def c5q : MCQQuestion :=
  { id := 2, question := "Good".toList,
    options := { A := "a".toList, B := "b".toList, C := "c".toList, D := "d".toList },
    correctAnswer := Letter.B, explanation := "ok".toList }

theorem c5_id_from_offered_position_witness :
    (parseMCQOutput c5raw)[0]? = some c5q
    ∧ ∃ k, (∃ b c, (offeredMCQBlocks c5raw)[k]? = some b ∧ parseMCQBlockCore b = some c
        ∧ c5q = mkQuestion k c)
      ∧ c5q.id = k + 1
      ∧ countWF ((offeredMCQBlocks c5raw).take k) = 0
      ∧ 0 + 1 ≤ c5q.id
      ∧ ((∃ m b2, m < k ∧ (offeredMCQBlocks c5raw)[m]? = some b2
            ∧ (parseMCQBlockCore b2).isSome = false) → 0 + 1 < c5q.id) :=
  ⟨by decide, c5_id_from_offered_position c5raw 0 c5q (by decide)⟩
